import Mathlib

/-!
Shallow embedding of `src/server.py` (`RangeRequestHandler`), a minimal HTTP
static-file server with byte-range support.  Python strings are modelled as
`List Char`, file contents as `List Nat` (byte values), responses as a record
of status, header pairs and body bytes.
-/

deriving instance DecidableEq for Except

namespace RangeServer

/-- One step of decimal accumulation: `a * 10 + digit value of c`. -/
def digitStep (a : Nat) (c : Char) : Nat := a * 10 + (c.toNat - 48)

/-- Auxiliary state of Python `int()` digit parsing: after at least one digit,
Python allows a single underscore between digits (`1_0`), never trailing or
doubled. -/
def pyDigitsAux (acc : Nat) : List Char → Option Nat
  | [] => some acc
  | c :: cs =>
    if c = '_' then
      match cs with
      | [] => none
      | c2 :: cs2 => if c2.isDigit then pyDigitsAux (digitStep acc c2) cs2 else none
    else if c.isDigit then pyDigitsAux (digitStep acc c) cs else none

/-- Parse a nonempty digit sequence (with Python underscore grouping) to a
natural number, as Python `int()` does after sign/whitespace handling. -/
def pyDigits : List Char → Option Nat
  | [] => none
  | c :: cs =>
    if c = '_' then none
    else if c.isDigit then pyDigitsAux (c.toNat - 48) cs
    else none

/-- The ASCII digit character for a value below ten. -/
def digitChar (n : Nat) : Char :=
  match n with
  | 0 => '0' | 1 => '1' | 2 => '2' | 3 => '3' | 4 => '4'
  | 5 => '5' | 6 => '6' | 7 => '7' | 8 => '8' | _ => '9'

/-- Fuelled recursion for `natDigits`; `fuel > n` always suffices because
the argument drops by division by ten at every step. -/
def natDigitsAux : Nat → Nat → List Char
  | 0, _ => []
  | fuel + 1, n =>
    if n < 10 then [digitChar n]
    else natDigitsAux fuel (n / 10) ++ [digitChar (n % 10)]

/-- The decimal digit string of a natural number, most significant digit
first; used to build concrete `Range` header values such as `bytes=0-499`. -/
def natDigits (n : Nat) : List Char := natDigitsAux (n + 1) n

/-- Strip leading and trailing whitespace, as Python `int()` does on its
string argument. -/
def trimChars (s : List Char) : List Char :=
  ((s.dropWhile Char.isWhitespace).reverse.dropWhile Char.isWhitespace).reverse

/-- An ASCII single-quote character, used in the `int()` error message. -/
def sq : String := String.mk [Char.ofNat 39]

/-- The message of the `ValueError` raised by Python `int()` on a bad
literal. -/
def intErrMsg (s : List Char) : String :=
  "invalid literal for int() with base 10: " ++ sq ++ String.mk s ++ sq

/-- Sign handling of Python `int()` on an already-stripped string: one
optional leading sign, then digits. -/
def pyIntCore : List Char → Option Int
  | [] => none
  | c :: rest =>
    if c = '+' then (pyDigits rest).map (fun k => (k : Int))
    else if c = '-' then (pyDigits rest).map (fun k => -(k : Int))
    else (pyDigits (c :: rest)).map (fun k => (k : Int))

/-- Embedding of Python `int(s)` for `str` arguments: strip whitespace,
allow one optional sign, then a nonempty underscore-grouped digit string;
anything else raises `ValueError`. -/
def pyInt (s : List Char) : Except String Int :=
  match pyIntCore (trimChars s) with
  | some v => Except.ok v
  | none => Except.error (intErrMsg s)

/-- Fuelled scanner for `pyReplace`: on a match of the (nonempty) pattern,
emit the replacement and continue past the match; otherwise keep one
character.  Each step consumes at least one character of `s`, so fuel
`s.length` always suffices; exhausted fuel returns the (then empty) rest. -/
def pyReplaceAux (pat rep : List Char) : Nat → List Char → List Char
  | 0, s => s
  | fuel + 1, s =>
    match s with
    | [] => []
    | c :: cs =>
      if pat ≠ [] ∧ pat.isPrefixOf (c :: cs) = true then
        rep ++ pyReplaceAux pat rep fuel ((c :: cs).drop pat.length)
      else
        c :: pyReplaceAux pat rep fuel cs

/-- Embedding of Python `str.replace(pat, rep)` (all non-overlapping
occurrences, left to right).  The empty pattern is never used by the server,
and is treated as "no occurrence". -/
def pyReplace (s pat rep : List Char) : List Char := pyReplaceAux pat rep s.length s

/-- The pattern `"bytes="` (as its character list) stripped from the
`Range` header at `server.py:30`. -/
def bytesPat : List Char := ['b', 'y', 't', 'e', 's', '=']

/-- Line 30 of `server.py`:
`range_match = range_header.replace('bytes=', '').split('-')`. -/
def rangeTokens (hdr : List Char) : List (List Char) :=
  (pyReplace hdr bytesPat []).splitOn '-'

/-- Line 31 of `server.py`:
`start = int(range_match[0]) if range_match[0] else 0`
(an exception from `int` propagates as `Except.error`). -/
def startOf (hdr : List Char) : Except String Int :=
  if (rangeTokens hdr).headD [] ≠ [] then pyInt ((rangeTokens hdr).headD [])
  else Except.ok 0

/-- Line 32 of `server.py`:
`end = int(range_match[1]) if len(range_match) > 1 and range_match[1] else file_size - 1`. -/
def endOf (hdr : List Char) (file_size : Nat) : Except String Int :=
  if 1 < (rangeTokens hdr).length ∧ (rangeTokens hdr).getD 1 [] ≠ [] then
    pyInt ((rangeTokens hdr).getD 1 [])
  else Except.ok ((file_size : Int) - 1)

/-- An HTTP response as observable at the client: status code, header pairs
in the order they are sent, body bytes, and the error message carried by
`send_error` responses (rendered into the error page body by the base
handler). -/
structure Response where
  status : Nat
  headers : List (String × String)
  body : List Nat
  errorMsg : Option String := none
deriving DecidableEq

/-- The overridden `end_headers` (`server.py:74`): every response gets the
three CORS headers appended after the queued headers. -/
def end_headers (queued : List (String × String)) : List (String × String) :=
  queued ++
    [("Access-Control-Allow-Origin", "*"),
     ("Access-Control-Allow-Methods", "GET, OPTIONS"),
     ("Access-Control-Allow-Headers", "Range")]

/-- Embedding of `self.send_error(code, msg)`: an error response whose
headers go through the overridden `end_headers`. -/
def sendError (code : Nat) (msg : String) : Response :=
  { status := code, headers := end_headers [], body := [], errorMsg := some msg }

/-- Fuelled form of the chunked read loop; every iteration writes at least
one byte, so fuel `bytes_to_read` always suffices. -/
def streamChunksAux (data : List Nat) : Nat → Nat → Nat → List (List Nat)
  | 0, _, _ => []
  | fuel + 1, pos, b =>
    if 0 < b then
      let chunk := (data.drop pos).take (min 8192 b)
      if chunk = [] then []
      else chunk :: streamChunksAux data fuel (pos + chunk.length) (b - chunk.length)
    else []

/-- The chunked read loop (`server.py:49-58`), returning the chunks in the
order written: seek to `pos`, read at most `min 8192 bytes_to_read` bytes,
stop on empty read, decrement `bytes_to_read` by the chunk length. -/
def streamChunks (data : List Nat) (pos bytes_to_read : Nat) : List (List Nat) :=
  streamChunksAux data bytes_to_read pos bytes_to_read

/-- All bytes written by the read loop, in order. -/
def streamBody (data : List Nat) (pos bytes_to_read : Nat) : List Nat :=
  (streamChunks data pos bytes_to_read).flatten

/-- The 206 Partial Content response (`server.py:39-58`): status, queued
headers in source order (through `end_headers`), and the streamed window. -/
def response206 (data : List Nat) (mime : String) (start end_ : Int) : Response :=
  { status := 206
  , headers := end_headers
      [("Content-Type", mime),
       ("Content-Length", toString (end_ - start + 1)),
       ("Content-Range", "bytes " ++ toString start ++ "-" ++ toString end_
          ++ "/" ++ toString data.length),
       ("Accept-Ranges", "bytes"),
       ("Access-Control-Allow-Origin", "*")]
  , body := streamBody data start.toNat (end_ - start + 1).toNat }

/-- The 200 full-file response (`server.py:62-72`): whole body via
`f.read()`. -/
def response200 (data : List Nat) (mime : String) : Response :=
  { status := 200
  , headers := end_headers
      [("Content-Type", mime),
       ("Content-Length", toString data.length),
       ("Accept-Ranges", "bytes"),
       ("Access-Control-Allow-Origin", "*")]
  , body := data }

/-- The range branch of `do_GET` (`server.py:27-61`): parse start, then end
(in source order, so a failure in `start` wins), validate, then either 416,
500 via the `except` clause, or 206. -/
def rangeResponse (data : List Nat) (mime : String) (hdr : List Char) : Response :=
  match startOf hdr with
  | Except.error msg => sendError 500 msg
  | Except.ok start =>
    match endOf hdr data.length with
    | Except.error msg => sendError 500 msg
    | Except.ok end_ =>
      if start ≥ (data.length : Int) ∨ end_ ≥ (data.length : Int) ∨ start > end_ then
        sendError 416 "Requested Range Not Satisfiable"
      else response206 data mime start end_

/-- `do_GET` for a regular file of content `data` and guessed MIME type
`mime`, given the optional raw `Range` header value. -/
def do_GET (data : List Nat) (mime : String) (range_header : Option (List Char)) : Response :=
  match range_header with
  | some hdr => rangeResponse data mime hdr
  | none => response200 data mime

/-- `do_GET` including the existence check (`server.py:14-16`): a missing
file yields `send_error(404, "File not found")`. -/
def handleGET (file : Option (List Nat)) (mime : String)
    (range_header : Option (List Char)) : Response :=
  match file with
  | none => sendError 404 "File not found"
  | some data => do_GET data mime range_header

/-- `do_OPTIONS` (`server.py:81-87`): 200, the three CORS headers sent
explicitly and again by `end_headers`, empty body. -/
def do_OPTIONS : Response :=
  { status := 200
  , headers := end_headers
      [("Access-Control-Allow-Origin", "*"),
       ("Access-Control-Allow-Methods", "GET, OPTIONS"),
       ("Access-Control-Allow-Headers", "Range")]
  , body := [] }

/-- An observable action of the handler towards the client, used to follow
the order of events when the output sink can fail mid-stream. -/
inductive Ev where
  | response (status : Nat)
  | header (k v : String)
  | bodyWrite (chunk : List Nat)
  | sendErrorEv (status : Nat) (msg : String)
deriving DecidableEq

/-- Modelled from the spec: the network sink (`self.wfile`, provided by the
surrounding HTTP layer, not part of `src/`) may fail mid-stream when the
client disconnects.  It is modelled as accepting at most `cap` body bytes in
total; a `write` that would exceed `cap` raises.  This is the read loop of
`server.py:53-58` run against such a sink: the pair returned is the list of
successful writes in order and the exception message, if one was raised. -/
def streamSinkAux (data : List Nat) (cap : Nat) : Nat → Nat → Nat → Nat → List Ev × Option String
  | 0, _, _, _ => ([], none)
  | fuel + 1, pos, b, written =>
    if 0 < b then
      let chunk := (data.drop pos).take (min 8192 b)
      if chunk = [] then ([], none)
      else if cap < written + chunk.length then ([], some "Broken pipe")
      else
        let r := streamSinkAux data cap fuel (pos + chunk.length) (b - chunk.length)
          (written + chunk.length)
        (Ev.bodyWrite chunk :: r.1, r.2)
    else ([], none)

/-- The read loop against a sink of capacity `cap`, starting with `written`
bytes already accepted (fuel `b` always suffices, as in `streamChunks`). -/
def streamSink (data : List Nat) (pos b written cap : Nat) : List Ev × Option String :=
  streamSinkAux data cap b pos b written

/-- The header events queued by the 206 branch (`server.py:40-46`),
including the three CORS headers appended by `end_headers`. -/
def hdrEvents206 (mime : String) (start end_ : Int) (file_size : Nat) : List Ev :=
  [Ev.response 206,
   Ev.header "Content-Type" mime,
   Ev.header "Content-Length" (toString (end_ - start + 1)),
   Ev.header "Content-Range"
     ("bytes " ++ toString start ++ "-" ++ toString end_ ++ "/" ++ toString file_size),
   Ev.header "Accept-Ranges" "bytes",
   Ev.header "Access-Control-Allow-Origin" "*",
   Ev.header "Access-Control-Allow-Origin" "*",
   Ev.header "Access-Control-Allow-Methods" "GET, OPTIONS",
   Ev.header "Access-Control-Allow-Headers" "Range"]

/-- The range branch of `do_GET` (`server.py:27-61`) as an event trace
against a sink of capacity `cap`: an exception raised inside the `try` block
by a failing `self.wfile.write` is caught by the `except` clause
(`server.py:59-61`), which calls `self.send_error(500, str(e))`. -/
def rangeTrace (data : List Nat) (mime : String) (hdr : List Char) (cap : Nat) : List Ev :=
  match startOf hdr with
  | Except.error msg => [Ev.sendErrorEv 500 msg]
  | Except.ok start =>
    match endOf hdr data.length with
    | Except.error msg => [Ev.sendErrorEv 500 msg]
    | Except.ok end_ =>
      if start ≥ (data.length : Int) ∨ end_ ≥ (data.length : Int) ∨ start > end_ then
        [Ev.sendErrorEv 416 "Requested Range Not Satisfiable"]
      else
        let r := streamSink data start.toNat (end_ - start + 1).toNat 0 cap
        match r.2 with
        | none => hdrEvents206 mime start end_ data.length ++ r.1
        | some msg => hdrEvents206 mime start end_ data.length ++ r.1
            ++ [Ev.sendErrorEv 500 msg]

/-- All body bytes a trace actually wrote to the sink, in order. -/
def writtenBody (tr : List Ev) : List Nat :=
  (tr.filterMap fun ev =>
    match ev with
    | Ev.bodyWrite c => some c
    | _ => none).flatten

/-- `windowsChain L s ws` holds when the windows `ws` are consecutive,
individually valid, start at `s` and end exactly at `L - 1`. -/
def windowsChain (L : Nat) : Nat → List (Nat × Nat) → Bool
  | s, [] => s == L
  | s, w :: ws =>
    (w.1 == s) && decide (w.1 ≤ w.2) && decide (w.2 < L) && windowsChain L (w.2 + 1) ws

/-- The `Range` header `bytes=<s>-<e>` with both bounds in decimal. -/
def rangeHeaderSE (s e : Nat) : List Char := bytesPat ++ natDigits s ++ '-' :: natDigits e

/-- The `Range` header `bytes=-<e>` with an empty start bound. -/
def rangeHeaderSuffix (e : Nat) : List Char := bytesPat ++ '-' :: natDigits e

/-- The `Range` header `bytes=<s>-` with an empty end bound. -/
def rangeHeaderFrom (s : Nat) : List Char := bytesPat ++ natDigits s ++ ['-']

/-! Facts about decimal digit strings and the `int()` embedding. -/

theorem digitChar_isDigit (n : Nat) : (digitChar n).isDigit = true := by
  unfold digitChar
  split <;> decide

theorem digitChar_val (n : Nat) (h : n < 10) : (digitChar n).toNat - 48 = n := by
  interval_cases n <;> decide

theorem isDigit_not_special (c : Char) (h : c.isDigit = true) :
    c ≠ '_' ∧ c ≠ '+' ∧ c ≠ '-' ∧ c ≠ 'b' ∧ c.isWhitespace = false := by
  refine ⟨?_, ?_, ?_, ?_, ?_⟩
  · rintro rfl; exact absurd h (by decide)
  · rintro rfl; exact absurd h (by decide)
  · rintro rfl; exact absurd h (by decide)
  · rintro rfl; exact absurd h (by decide)
  · cases hw : c.isWhitespace
    · rfl
    · have hc : ((c = ' ' ∨ c = '\t') ∨ c = '\r') ∨ c = '\n' := by
        simpa [Char.isWhitespace] using hw
      rcases hc with ((rfl | rfl) | rfl) | rfl <;> exact absurd h (by decide)

theorem natDigitsAux_ne_nil (fuel n : Nat) (h : n < fuel) : natDigitsAux fuel n ≠ [] := by
  match fuel with
  | 0 => omega
  | fuel + 1 =>
    unfold natDigitsAux
    split <;> simp

theorem natDigitsAux_digits (fuel : Nat) :
    ∀ n, n < fuel → ∀ c ∈ natDigitsAux fuel n, c.isDigit = true := by
  induction fuel with
  | zero => omega
  | succ fuel ih =>
    intro n h c hc
    rw [natDigitsAux] at hc
    split at hc
    · rw [List.mem_singleton] at hc
      exact hc ▸ digitChar_isDigit n
    · rw [List.mem_append, List.mem_singleton] at hc
      rcases hc with hc | rfl
      · have hd : n / 10 < fuel := by
          have := Nat.div_lt_self (show 0 < n by omega) (show 1 < 10 by omega)
          omega
        exact ih (n / 10) hd c hc
      · exact digitChar_isDigit (n % 10)

theorem natDigitsAux_fold (fuel : Nat) :
    ∀ n, n < fuel → (natDigitsAux fuel n).foldl digitStep 0 = n := by
  induction fuel with
  | zero => omega
  | succ fuel ih =>
    intro n h
    rw [natDigitsAux]
    split
    · next h10 =>
      simp only [List.foldl_cons, List.foldl_nil, digitStep]
      rw [digitChar_val n h10]
      omega
    · next h10 =>
      have hd : n / 10 < fuel := by
        have := Nat.div_lt_self (show 0 < n by omega) (show 1 < 10 by omega)
        omega
      rw [List.foldl_append, ih (n / 10) hd]
      simp only [List.foldl_cons, List.foldl_nil, digitStep]
      rw [digitChar_val (n % 10) (Nat.mod_lt n (by omega))]
      omega

theorem natDigits_ne_nil (n : Nat) : natDigits n ≠ [] :=
  natDigitsAux_ne_nil (n + 1) n (Nat.lt_succ_self n)

theorem natDigits_digits (n : Nat) : ∀ c ∈ natDigits n, c.isDigit = true :=
  natDigitsAux_digits (n + 1) n (Nat.lt_succ_self n)

theorem natDigits_fold (n : Nat) : (natDigits n).foldl digitStep 0 = n :=
  natDigitsAux_fold (n + 1) n (Nat.lt_succ_self n)

theorem pyDigitsAux_cons (acc : Nat) (c : Char) (cs : List Char) :
    pyDigitsAux acc (c :: cs) =
      if c = '_' then
        match cs with
        | [] => none
        | c2 :: cs2 => if c2.isDigit then pyDigitsAux (digitStep acc c2) cs2 else none
      else if c.isDigit then pyDigitsAux (digitStep acc c) cs else none := by
  cases cs <;> rfl

theorem pyDigitsAux_all_digits (cs : List Char) :
    ∀ acc, (∀ c ∈ cs, c.isDigit = true) →
      pyDigitsAux acc cs = some (cs.foldl digitStep acc) := by
  induction cs with
  | nil => intro acc _; rfl
  | cons c cs ih =>
    intro acc h
    have hc : c.isDigit = true := h c (List.mem_cons_self c cs)
    rw [pyDigitsAux_cons, if_neg (isDigit_not_special c hc).1, if_pos hc,
      ih (digitStep acc c) (fun d hd => h d (List.mem_cons_of_mem c hd)),
      List.foldl_cons]

theorem pyDigits_all_digits (cs : List Char) (hne : cs ≠ [])
    (h : ∀ c ∈ cs, c.isDigit = true) :
    pyDigits cs = some (cs.foldl digitStep 0) := by
  match cs with
  | [] => exact absurd rfl hne
  | c :: cs =>
    have hc : c.isDigit = true := h c (List.mem_cons_self c cs)
    rw [pyDigits, if_neg (isDigit_not_special c hc).1, if_pos hc,
      pyDigitsAux_all_digits cs (c.toNat - 48)
        (fun d hd => h d (List.mem_cons_of_mem c hd)), List.foldl_cons]
    have : digitStep 0 c = c.toNat - 48 := by simp [digitStep]
    rw [this]

theorem dropWhile_eq_of_all_false {p : Char → Bool} (cs : List Char)
    (h : ∀ c ∈ cs, p c = false) : cs.dropWhile p = cs := by
  cases cs with
  | nil => rfl
  | cons c cs => rw [List.dropWhile_cons, h c (List.mem_cons_self c cs)]; simp

theorem trimChars_all_digits (cs : List Char) (h : ∀ c ∈ cs, c.isDigit = true) :
    trimChars cs = cs := by
  unfold trimChars
  rw [dropWhile_eq_of_all_false cs (fun c hc => (isDigit_not_special c (h c hc)).2.2.2.2),
    dropWhile_eq_of_all_false cs.reverse
      (fun c hc => (isDigit_not_special c (h c (List.mem_reverse.mp hc))).2.2.2.2),
    List.reverse_reverse]

theorem pyInt_all_digits (cs : List Char) (hne : cs ≠ [])
    (h : ∀ c ∈ cs, c.isDigit = true) :
    pyInt cs = Except.ok ((cs.foldl digitStep 0 : Nat) : Int) := by
  rw [pyInt, trimChars_all_digits cs h]
  match cs, hne with
  | c :: cs, _ =>
    have hc : c.isDigit = true := h c (List.mem_cons_self c cs)
    rw [pyIntCore, if_neg (isDigit_not_special c hc).2.1, if_neg (isDigit_not_special c hc).2.2.1,
      pyDigits_all_digits (c :: cs) (by simp) h]
    rfl

theorem pyInt_natDigits (n : Nat) : pyInt (natDigits n) = Except.ok (n : Int) := by
  rw [pyInt_all_digits (natDigits n) (natDigits_ne_nil n) (natDigits_digits n),
    natDigits_fold n]

/-! Facts about the header scanning steps (`replace`, `split`). -/

theorem natDigits_ne_dash (n : Nat) : '-' ∉ natDigits n := fun h =>
  absurd (natDigits_digits n '-' h) (by decide)

theorem natDigits_ne_b (n : Nat) : 'b' ∉ natDigits n := fun h =>
  absurd (natDigits_digits n 'b' h) (by decide)

theorem isPrefixOf_append_self (p r : List Char) : p.isPrefixOf (p ++ r) = true := by
  induction p with
  | nil => simp
  | cons a as ih => simp [List.isPrefixOf, ih]

theorem pyReplaceAux_cons (pat rep : List Char) (fuel : Nat) (c : Char) (cs : List Char) :
    pyReplaceAux pat rep (fuel + 1) (c :: cs) =
      if pat ≠ [] ∧ pat.isPrefixOf (c :: cs) = true then
        rep ++ pyReplaceAux pat rep fuel ((c :: cs).drop pat.length)
      else
        c :: pyReplaceAux pat rep fuel cs := rfl

theorem pyReplaceAux_no_b (fuel : Nat) :
    ∀ s : List Char, 'b' ∉ s → pyReplaceAux bytesPat [] fuel s = s := by
  induction fuel with
  | zero => intro s _; rfl
  | succ fuel ih =>
    intro s hs
    match s with
    | [] => rfl
    | c :: cs =>
      have hc : c ≠ 'b' := fun h => hs (h ▸ List.mem_cons_self c cs)
      rw [pyReplaceAux_cons, if_neg, ih cs (fun h => hs (List.mem_cons_of_mem c h))]
      rintro ⟨-, hpre⟩
      have : 'b' = c := by
        have := hpre
        simp only [bytesPat, List.isPrefixOf, Bool.and_eq_true, beq_iff_eq] at this
        exact this.1
      exact hc this.symm

theorem pyReplace_strip (rest : List Char) (h : 'b' ∉ rest) :
    pyReplace (bytesPat ++ rest) bytesPat [] = rest := by
  have hl : (bytesPat ++ rest).length = rest.length + 5 + 1 := by
    simp only [List.length_append, bytesPat, List.length_cons, List.length_nil]
    omega
  rw [pyReplace, hl]
  have hcons : bytesPat ++ rest = 'b' :: (['y', 't', 'e', 's', '='] ++ rest) := rfl
  rw [hcons, pyReplaceAux_cons, if_pos]
  · rw [List.nil_append]
    have hdrop : (('b' :: (['y', 't', 'e', 's', '='] ++ rest)).drop bytesPat.length) = rest := by
      show ((bytesPat ++ rest).drop bytesPat.length) = rest
      exact List.drop_left bytesPat rest
    rw [hdrop]
    exact pyReplaceAux_no_b _ rest h
  · exact ⟨by simp [bytesPat], by rw [← hcons]; exact isPrefixOf_append_self bytesPat rest⟩

theorem splitOn_no_dash (ys : List Char) (h : '-' ∉ ys) : ys.splitOn '-' = [ys] := by
  induction ys with
  | nil => rfl
  | cons c cs ih =>
    have hc : ¬(c = '-') := fun hcd => h (hcd ▸ List.mem_cons_self c cs)
    simp only [List.splitOn] at *
    rw [List.splitOnP_cons, if_neg (by simpa using hc), ih (fun hm => h (List.mem_cons_of_mem c hm))]
    rfl

theorem splitOn_append_dash (xs ys : List Char) (h : '-' ∉ xs) :
    (xs ++ '-' :: ys).splitOn '-' = xs :: ys.splitOn '-' := by
  induction xs with
  | nil =>
    simp only [List.nil_append, List.splitOn]
    rw [List.splitOnP_cons, if_pos (by simp)]
  | cons c cs ih =>
    have hc : ¬(c = '-') := fun hcd => h (hcd ▸ List.mem_cons_self c cs)
    simp only [List.cons_append, List.splitOn] at *
    rw [List.splitOnP_cons, if_neg (by simpa using hc),
      ih (fun hm => h (List.mem_cons_of_mem c hm))]
    rfl

/-! Evaluation of the parse (`server.py:30-32`) on the three header shapes. -/

theorem rangeTokens_SE (s e : Nat) :
    rangeTokens (rangeHeaderSE s e) = [natDigits s, natDigits e] := by
  rw [rangeTokens, rangeHeaderSE, List.append_assoc, pyReplace_strip]
  · rw [splitOn_append_dash _ _ (natDigits_ne_dash s), splitOn_no_dash _ (natDigits_ne_dash e)]
  · intro hb
    rw [List.mem_append, List.mem_cons] at hb
    rcases hb with hb | hb | hb
    · exact natDigits_ne_b s hb
    · exact absurd hb (by decide)
    · exact natDigits_ne_b e hb

theorem rangeTokens_suffix (e : Nat) :
    rangeTokens (rangeHeaderSuffix e) = [[], natDigits e] := by
  rw [rangeTokens, rangeHeaderSuffix, pyReplace_strip]
  · have : ('-' :: natDigits e) = ([] : List Char) ++ '-' :: natDigits e := rfl
    rw [this, splitOn_append_dash _ _ (by simp), splitOn_no_dash _ (natDigits_ne_dash e)]
  · intro hb
    rw [List.mem_cons] at hb
    rcases hb with hb | hb
    · exact absurd hb (by decide)
    · exact natDigits_ne_b e hb

theorem rangeTokens_from (s : Nat) :
    rangeTokens (rangeHeaderFrom s) = [natDigits s, []] := by
  rw [rangeTokens, rangeHeaderFrom, List.append_assoc, pyReplace_strip]
  · have : natDigits s ++ ['-'] = natDigits s ++ '-' :: ([] : List Char) := rfl
    rw [this, splitOn_append_dash _ _ (natDigits_ne_dash s)]
    rfl
  · intro hb
    rw [List.mem_append, List.mem_cons] at hb
    rcases hb with hb | hb | hb
    · exact natDigits_ne_b s hb
    · exact absurd hb (by decide)
    · exact absurd hb (by simp at hb)

theorem startOf_SE (s e : Nat) : startOf (rangeHeaderSE s e) = Except.ok (s : Int) := by
  rw [startOf, rangeTokens_SE]
  rw [if_pos (by simpa using natDigits_ne_nil s)]
  exact pyInt_natDigits s

theorem endOf_SE (s e : Nat) (L : Nat) :
    endOf (rangeHeaderSE s e) L = Except.ok (e : Int) := by
  rw [endOf, rangeTokens_SE]
  rw [if_pos ⟨by simp, by simpa using natDigits_ne_nil e⟩]
  exact pyInt_natDigits e

theorem startOf_suffix (e : Nat) : startOf (rangeHeaderSuffix e) = Except.ok 0 := by
  rw [startOf, rangeTokens_suffix]
  rw [if_neg (by simp)]

theorem endOf_suffix (e : Nat) (L : Nat) :
    endOf (rangeHeaderSuffix e) L = Except.ok (e : Int) := by
  rw [endOf, rangeTokens_suffix]
  rw [if_pos ⟨by simp, by simpa using natDigits_ne_nil e⟩]
  exact pyInt_natDigits e

theorem startOf_from (s : Nat) : startOf (rangeHeaderFrom s) = Except.ok (s : Int) := by
  rw [startOf, rangeTokens_from]
  rw [if_pos (by simpa using natDigits_ne_nil s)]
  exact pyInt_natDigits s

theorem endOf_from (s : Nat) (L : Nat) :
    endOf (rangeHeaderFrom s) L = Except.ok ((L : Int) - 1) := by
  rw [endOf, rangeTokens_from]
  rw [if_neg (by simp)]

/-! Facts about the chunked read loop. -/

theorem streamChunksAux_succ (data : List Nat) (fuel pos b : Nat) :
    streamChunksAux data (fuel + 1) pos b =
      if 0 < b then
        if (data.drop pos).take (min 8192 b) = [] then []
        else (data.drop pos).take (min 8192 b) ::
          streamChunksAux data fuel (pos + ((data.drop pos).take (min 8192 b)).length)
            (b - ((data.drop pos).take (min 8192 b)).length)
      else [] := rfl

theorem streamChunksAux_flatten (data : List Nat) (fuel : Nat) :
    ∀ pos b, b ≤ fuel →
      (streamChunksAux data fuel pos b).flatten = (data.drop pos).take b := by
  induction fuel with
  | zero =>
    intro pos b hb
    have hb0 : b = 0 := by omega
    subst hb0
    simp [streamChunksAux]
  | succ fuel ih =>
    intro pos b hb
    rw [streamChunksAux_succ]
    by_cases h0 : 0 < b
    · rw [if_pos h0]
      by_cases hc : (data.drop pos).take (min 8192 b) = []
      · rw [if_pos hc]
        have hd : data.drop pos = [] := by
          rcases List.take_eq_nil_iff.mp hc with h | h
          · omega
          · exact h
        rw [hd]
        simp
      · rw [if_neg hc]
        have hlen : 0 < ((data.drop pos).take (min 8192 b)).length :=
          List.length_pos.mpr hc
        rw [List.flatten_cons,
          ih (pos + ((data.drop pos).take (min 8192 b)).length)
            (b - ((data.drop pos).take (min 8192 b)).length) (by omega),
          ← List.drop_drop]
        generalize data.drop pos = l at *
        rcases Nat.le_total l.length (min 8192 b) with hle | hle
        · rw [List.take_of_length_le hle, List.take_of_length_le (show l.length ≤ b by omega),
            List.drop_eq_nil_of_le (Nat.le_refl l.length)]
          simp
        · have hlen2 : (l.take (min 8192 b)).length = min 8192 b := by
            rw [List.length_take]
            omega
          rw [hlen2, ← List.take_add,
            show min 8192 b + (b - min 8192 b) = b from by omega]
    · rw [if_neg h0]
      have hb0 : b = 0 := by omega
      subst hb0
      simp

theorem streamBody_eq_take (data : List Nat) (pos b : Nat) :
    streamBody data pos b = (data.drop pos).take b := by
  rw [streamBody, streamChunks]
  exact streamChunksAux_flatten data b pos b (Nat.le_refl b)

theorem streamChunksAux_mem (data : List Nat) (fuel : Nat) :
    ∀ pos b c, c ∈ streamChunksAux data fuel pos b → c ≠ [] ∧ c.length ≤ 8192 := by
  induction fuel with
  | zero =>
    intro pos b c hc
    simp [streamChunksAux] at hc
  | succ fuel ih =>
    intro pos b c hc
    rw [streamChunksAux_succ] at hc
    by_cases h0 : 0 < b
    · rw [if_pos h0] at hc
      by_cases hn : (data.drop pos).take (min 8192 b) = []
      · rw [if_pos hn] at hc
        simp at hc
      · rw [if_neg hn, List.mem_cons] at hc
        rcases hc with rfl | hc
        · refine ⟨hn, ?_⟩
          rw [List.length_take]
          omega
        · exact ih _ _ c hc
    · rw [if_neg h0] at hc
      simp at hc

theorem streamChunks_mem (data : List Nat) (pos b : Nat) :
    ∀ c ∈ streamChunks data pos b, c ≠ [] ∧ c.length ≤ 8192 := by
  intro c hc
  exact streamChunksAux_mem data b pos b c hc

/-! Facts assembling the response in the valid-range case. -/

theorem rangeResponse_of_ok (data : List Nat) (mime : String) (hdr : List Char)
    (s e : Int) (hs : startOf hdr = Except.ok s) (he : endOf hdr data.length = Except.ok e)
    (hv : ¬(s ≥ (data.length : Int) ∨ e ≥ (data.length : Int) ∨ s > e)) :
    rangeResponse data mime hdr = response206 data mime s e := by
  rw [rangeResponse, hs, he]
  exact if_neg hv

theorem rangeResponse_of_unsat (data : List Nat) (mime : String) (hdr : List Char)
    (s e : Int) (hs : startOf hdr = Except.ok s) (he : endOf hdr data.length = Except.ok e)
    (hv : s ≥ (data.length : Int) ∨ e ≥ (data.length : Int) ∨ s > e) :
    rangeResponse data mime hdr = sendError 416 "Requested Range Not Satisfiable" := by
  rw [rangeResponse, hs, he]
  exact if_pos hv

theorem do_GET_SE (data : List Nat) (mime : String) (s e : Nat)
    (hse : s ≤ e) (heL : e < data.length) :
    do_GET data mime (some (rangeHeaderSE s e)) = response206 data mime (s : Int) (e : Int) := by
  show rangeResponse data mime (rangeHeaderSE s e) = _
  exact rangeResponse_of_ok data mime _ _ _ (startOf_SE s e) (endOf_SE s e data.length)
    (by omega)

theorem body_SE (data : List Nat) (mime : String) (s e : Nat)
    (hse : s ≤ e) (heL : e < data.length) :
    (do_GET data mime (some (rangeHeaderSE s e))).body = (data.drop s).take (e - s + 1) := by
  rw [do_GET_SE data mime s e hse heL]
  show streamBody data ((s : Int)).toNat (((e : Int) - (s : Int) + 1)).toNat = _
  rw [show (((e : Int) - (s : Int) + 1)).toNat = e - s + 1 from by omega,
    show ((s : Int)).toNat = s from rfl, streamBody_eq_take]

/-! The claims. -/

/-- C1: for every resource of length `L ≥ 1` and every `Range` header
`bytes=<start>-<end>` with `0 ≤ start ≤ end ≤ L - 1`, `do_GET` responds 206
with `Content-Length = end - start + 1`, `Content-Range: bytes
<start>-<end>/<L>`, and a body exactly equal to the resource bytes at
offsets `start` through `end` inclusive. -/
theorem claim1_valid_range_206 (data : List Nat) (mime : String) (s e : Nat)
    (hL : 1 ≤ data.length) (hse : s ≤ e) (heL : e ≤ data.length - 1) :
    (do_GET data mime (some (rangeHeaderSE s e))).status = 206 ∧
    ("Content-Length", toString (e - s + 1))
      ∈ (do_GET data mime (some (rangeHeaderSE s e))).headers ∧
    ("Content-Range", "bytes " ++ toString s ++ "-" ++ toString e ++ "/" ++ toString data.length)
      ∈ (do_GET data mime (some (rangeHeaderSE s e))).headers ∧
    (do_GET data mime (some (rangeHeaderSE s e))).body = (data.drop s).take (e - s + 1) := by
  have he : e < data.length := by omega
  refine ⟨?_, ?_, ?_, body_SE data mime s e hse he⟩
  · rw [do_GET_SE data mime s e hse he]
    rfl
  · rw [do_GET_SE data mime s e hse he]
    show ("Content-Length", toString (e - s + 1)) ∈ end_headers _
    rw [show ((e : Int) - (s : Int) + 1) = ((e - s + 1 : Nat) : Int) from by omega,
      show toString (((e - s + 1 : Nat) : Int)) = toString (e - s + 1) from rfl]
    simp [end_headers]
  · rw [do_GET_SE data mime s e hse he]
    show _ ∈ end_headers _
    simp [end_headers]
    rfl

/-- Witness for C1 at a concrete input: resource `[10, 20, 30, 40, 50]`,
header `bytes=1-3`. -/
theorem claim1_witness :
    (do_GET [10, 20, 30, 40, 50] "t" (some (rangeHeaderSE 1 3))).status = 206 ∧
    ("Content-Length", toString (3 - 1 + 1))
      ∈ (do_GET [10, 20, 30, 40, 50] "t" (some (rangeHeaderSE 1 3))).headers ∧
    ("Content-Range", "bytes " ++ toString 1 ++ "-" ++ toString 3 ++ "/"
        ++ toString (List.length [10, 20, 30, 40, 50]))
      ∈ (do_GET [10, 20, 30, 40, 50] "t" (some (rangeHeaderSE 1 3))).headers ∧
    (do_GET [10, 20, 30, 40, 50] "t" (some (rangeHeaderSE 1 3))).body
      = (List.drop 1 [10, 20, 30, 40, 50]).take (3 - 1 + 1) :=
  claim1_valid_range_206 [10, 20, 30, 40, 50] "t" 1 3 (by decide) (by decide) (by decide)

/-- C3: for every resource length and every numerically parsed range
`(start, end)`, if `start ≥ L` or `end ≥ L` or `start > end` the handler
responds 416; equality `start = end` (in bounds) is valid and served as a
single-byte 206 response. -/
theorem claim3_validation (data : List Nat) (mime : String) (s e : Nat) :
    (s ≥ data.length ∨ e ≥ data.length ∨ s > e →
      (do_GET data mime (some (rangeHeaderSE s e))).status = 416) ∧
    (s = e → s < data.length →
      (do_GET data mime (some (rangeHeaderSE s e))).status = 206 ∧
      (do_GET data mime (some (rangeHeaderSE s e))).body.length = 1 ∧
      ("Content-Length", "1") ∈ (do_GET data mime (some (rangeHeaderSE s e))).headers) := by
  constructor
  · intro hv
    show (rangeResponse data mime (rangeHeaderSE s e)).status = 416
    rw [rangeResponse_of_unsat data mime _ (s : Int) (e : Int) (startOf_SE s e)
      (endOf_SE s e data.length) (by omega)]
    rfl
  · rintro rfl hs
    refine ⟨?_, ?_, ?_⟩
    · rw [do_GET_SE data mime s s (Nat.le_refl s) hs]
      rfl
    · rw [body_SE data mime s s (Nat.le_refl s) hs]
      rw [List.length_take, List.length_drop]
      omega
    · rw [do_GET_SE data mime s s (Nat.le_refl s) hs]
      show _ ∈ end_headers _
      rw [show ((s : Int) - (s : Int) + 1) = (1 : Int) from by omega,
        show toString (1 : Int) = "1" from rfl]
      simp [end_headers]

/-- Witness for C3 at concrete inputs: `bytes=5-9` against a 3-byte
resource is 416; `bytes=1-1` against it is a one-byte 206. -/
theorem claim3_witness :
    (do_GET [7, 8, 9] "t" (some (rangeHeaderSE 5 9))).status = 416 ∧
    ((do_GET [7, 8, 9] "t" (some (rangeHeaderSE 1 1))).status = 206 ∧
     (do_GET [7, 8, 9] "t" (some (rangeHeaderSE 1 1))).body.length = 1 ∧
     ("Content-Length", "1") ∈ (do_GET [7, 8, 9] "t" (some (rangeHeaderSE 1 1))).headers) :=
  ⟨(claim3_validation [7, 8, 9] "t" 5 9).1 (by decide),
   (claim3_validation [7, 8, 9] "t" 1 1).2 rfl (by decide)⟩

/-- C4: a header `bytes=-<N>` (empty start bound) is parsed with the empty
start treated as offset 0 — not as an RFC 7233 suffix length — so it denotes
the window `(0, N)`: start parses to 0, end to `N`, and the response is a
206 whose body is the first `N + 1` bytes. -/
theorem claim4_empty_start_is_zero (data : List Nat) (mime : String) (n : Nat)
    (hn : n < data.length) :
    startOf (rangeHeaderSuffix n) = Except.ok 0 ∧
    endOf (rangeHeaderSuffix n) data.length = Except.ok (n : Int) ∧
    (do_GET data mime (some (rangeHeaderSuffix n))).status = 206 ∧
    ("Content-Range", "bytes " ++ toString 0 ++ "-" ++ toString n ++ "/" ++ toString data.length)
      ∈ (do_GET data mime (some (rangeHeaderSuffix n))).headers ∧
    (do_GET data mime (some (rangeHeaderSuffix n))).body = data.take (n + 1) := by
  have hget : do_GET data mime (some (rangeHeaderSuffix n))
      = response206 data mime 0 (n : Int) := by
    show rangeResponse data mime (rangeHeaderSuffix n) = _
    exact rangeResponse_of_ok data mime _ 0 (n : Int) (startOf_suffix n)
      (endOf_suffix n data.length) (by omega)
  refine ⟨startOf_suffix n, endOf_suffix n data.length, ?_, ?_, ?_⟩
  · rw [hget]
    rfl
  · rw [hget]
    show _ ∈ end_headers _
    simp [end_headers]
    rw [show toString (0 : Int) = toString (0 : Nat) from rfl,
      show toString ((n : Int)) = toString n from rfl]
  · rw [hget]
    show streamBody data ((0 : Int)).toNat (((n : Int) - 0 + 1)).toNat = _
    rw [show (((n : Int) - 0 + 1)).toNat = n + 1 from by omega,
      show ((0 : Int)).toNat = 0 from rfl, streamBody_eq_take, List.drop_zero]

/-- Witness for C4 at the spec's concrete input: `bytes=-500` on a resource
of length 1000 yields the window `(0, 500)`. -/
theorem claim4_witness :
    startOf (rangeHeaderSuffix 500) = Except.ok 0 ∧
    endOf (rangeHeaderSuffix 500) (List.replicate 1000 (0 : Nat)).length = Except.ok 500 ∧
    (do_GET (List.replicate 1000 (0 : Nat)) "t" (some (rangeHeaderSuffix 500))).status = 206 ∧
    ("Content-Range", "bytes " ++ toString 0 ++ "-" ++ toString 500 ++ "/"
        ++ toString (List.replicate 1000 (0 : Nat)).length)
      ∈ (do_GET (List.replicate 1000 (0 : Nat)) "t" (some (rangeHeaderSuffix 500))).headers ∧
    (do_GET (List.replicate 1000 (0 : Nat)) "t" (some (rangeHeaderSuffix 500))).body
      = (List.replicate 1000 (0 : Nat)).take (500 + 1) :=
  claim4_empty_start_is_zero (List.replicate 1000 0) "t" 500
    (by rw [List.length_replicate]; omega)

/-- C5: for every resource of length `L ≥ 1`, a GET with no `Range` header
yields 200 with `Content-Length = L` and the entire resource as body. -/
theorem claim5_full_response (data : List Nat) (mime : String) (hL : 1 ≤ data.length) :
    (do_GET data mime none).status = 200 ∧
    ("Content-Length", toString data.length) ∈ (do_GET data mime none).headers ∧
    (do_GET data mime none).body = data := by
  refine ⟨rfl, ?_, rfl⟩
  show _ ∈ end_headers _
  simp [end_headers]

/-- Witness for C5 at a concrete input. -/
theorem claim5_witness :
    (do_GET [3, 1, 4, 1, 5] "t" none).status = 200 ∧
    ("Content-Length", toString (List.length [3, 1, 4, 1, 5]))
      ∈ (do_GET [3, 1, 4, 1, 5] "t" none).headers ∧
    (do_GET [3, 1, 4, 1, 5] "t" none).body = [3, 1, 4, 1, 5] :=
  claim5_full_response [3, 1, 4, 1, 5] "t" (by decide)

/-- C6: a header `bytes=<start>-` (empty end bound) with `start < L` sets
`end = L - 1`: the response is a 206 covering bytes `start` through `L - 1`,
i.e. its body is `data.drop start`. -/
theorem claim6_open_ended_range (data : List Nat) (mime : String) (s : Nat)
    (hs : s < data.length) :
    endOf (rangeHeaderFrom s) data.length = Except.ok ((data.length : Int) - 1) ∧
    (do_GET data mime (some (rangeHeaderFrom s))).status = 206 ∧
    ("Content-Range", "bytes " ++ toString s ++ "-" ++ toString (data.length - 1)
        ++ "/" ++ toString data.length)
      ∈ (do_GET data mime (some (rangeHeaderFrom s))).headers ∧
    (do_GET data mime (some (rangeHeaderFrom s))).body = data.drop s := by
  have hget : do_GET data mime (some (rangeHeaderFrom s))
      = response206 data mime (s : Int) ((data.length : Int) - 1) := by
    show rangeResponse data mime (rangeHeaderFrom s) = _
    exact rangeResponse_of_ok data mime _ (s : Int) ((data.length : Int) - 1)
      (startOf_from s) (endOf_from s data.length) (by omega)
  refine ⟨endOf_from s data.length, ?_, ?_, ?_⟩
  · rw [hget]
    rfl
  · rw [hget]
    show _ ∈ end_headers _
    rw [show ((data.length : Int) - 1) = ((data.length - 1 : Nat) : Int) from by omega,
      show toString (((data.length - 1 : Nat) : Int)) = toString (data.length - 1) from rfl]
    simp [end_headers]
    rfl
  · rw [hget]
    show streamBody data ((s : Int)).toNat
      ((((data.length : Int) - 1) - (s : Int) + 1)).toNat = _
    rw [show ((((data.length : Int) - 1) - (s : Int) + 1)).toNat = data.length - s from by omega,
      show ((s : Int)).toNat = s from rfl, streamBody_eq_take]
    exact List.take_of_length_le (by rw [List.length_drop])

/-- Witness for C6 at the spec's concrete input: `bytes=100-` on a resource
of length 1000 covers bytes 100 through 999. -/
theorem claim6_witness :
    endOf (rangeHeaderFrom 100) (List.replicate 1000 (0 : Nat)).length
      = Except.ok ((((List.replicate 1000 (0 : Nat)).length : Nat) : Int) - 1) ∧
    (do_GET (List.replicate 1000 (0 : Nat)) "t" (some (rangeHeaderFrom 100))).status = 206 ∧
    ("Content-Range", "bytes " ++ toString 100 ++ "-"
        ++ toString ((List.replicate 1000 (0 : Nat)).length - 1)
        ++ "/" ++ toString (List.replicate 1000 (0 : Nat)).length)
      ∈ (do_GET (List.replicate 1000 (0 : Nat)) "t" (some (rangeHeaderFrom 100))).headers ∧
    (do_GET (List.replicate 1000 (0 : Nat)) "t" (some (rangeHeaderFrom 100))).body
      = (List.replicate 1000 (0 : Nat)).drop 100 :=
  claim6_open_ended_range (List.replicate 1000 0) "t" 100
    (by rw [List.length_replicate]; omega)

/-- Every `handleGET` branch sends its headers through the overridden
`end_headers`. -/
theorem handleGET_headers_via_end_headers (file : Option (List Nat)) (mime : String)
    (rh : Option (List Char)) :
    ∃ q, (handleGET file mime rh).headers = end_headers q := by
  cases file with
  | none => exact ⟨[], rfl⟩
  | some data =>
    cases rh with
    | none => exact ⟨_, rfl⟩
    | some hdr =>
      show ∃ q, (rangeResponse data mime hdr).headers = end_headers q
      rw [rangeResponse]
      cases startOf hdr with
      | error msg => exact ⟨[], rfl⟩
      | ok s =>
        cases endOf hdr data.length with
        | error msg => exact ⟨[], rfl⟩
        | ok e =>
          show ∃ q, (if s ≥ (data.length : Int) ∨ e ≥ (data.length : Int) ∨ s > e then
              sendError 416 "Requested Range Not Satisfiable"
            else response206 data mime s e).headers = end_headers q
          by_cases hv : s ≥ (data.length : Int) ∨ e ≥ (data.length : Int) ∨ s > e
          · rw [if_pos hv]
            exact ⟨[], rfl⟩
          · rw [if_neg hv]
            exact ⟨_, rfl⟩

/-- C7: every response emitted by the handler, on every branch (200 full,
206 partial, 416, 500, 404, and OPTIONS), carries all three CORS headers:
`Access-Control-Allow-Origin: *`, `Access-Control-Allow-Methods: GET,
OPTIONS`, and `Access-Control-Allow-Headers: Range`. -/
theorem claim7_cors_all_branches (file : Option (List Nat)) (mime : String)
    (rh : Option (List Char)) :
    (("Access-Control-Allow-Origin", "*") ∈ (handleGET file mime rh).headers ∧
     ("Access-Control-Allow-Methods", "GET, OPTIONS") ∈ (handleGET file mime rh).headers ∧
     ("Access-Control-Allow-Headers", "Range") ∈ (handleGET file mime rh).headers) ∧
    (("Access-Control-Allow-Origin", "*") ∈ do_OPTIONS.headers ∧
     ("Access-Control-Allow-Methods", "GET, OPTIONS") ∈ do_OPTIONS.headers ∧
     ("Access-Control-Allow-Headers", "Range") ∈ do_OPTIONS.headers) := by
  constructor
  · obtain ⟨q, hq⟩ := handleGET_headers_via_end_headers file mime rh
    rw [hq]
    refine ⟨?_, ?_, ?_⟩ <;> simp [end_headers]
  · refine ⟨?_, ?_, ?_⟩ <;> simp [do_OPTIONS, end_headers]

/-- C2 counterexample: the claim says a `Range` value lacking the `bytes=`
prefix, or one that does not split into exactly two dash-separated parts, is
rejected with a 500-class error.  In fact `5-10` (no prefix) and `bytes=5`
(a single part) are both served as ordinary 206 partial responses. -/
theorem claim2_counterexample :
    (do_GET [0, 1, 2, 3, 4, 5, 6, 7, 8, 9, 10] "t" (some ['5', '-', '1', '0'])).status = 206 ∧
    (do_GET [0, 1, 2, 3, 4, 5, 6, 7, 8, 9, 10] "t"
      (some ['b', 'y', 't', 'e', 's', '=', '5'])).status = 206 := by
  decide

/-- C2 (amended): only a nonempty non-numeric first or second dash-separated
token (after deleting `bytes=` occurrences) makes the parse fail; the
failure surfaces as a 500 response carrying the `int()` failure message and
never as a full-file 200 fallback.  The `bytes=` prefix is not required, and
a header with fewer than two dash-separated parts is not rejected (its
missing end bound is defaulted). -/
theorem claim2_malformed_is_500 (data : List Nat) (mime : String) (hdr : List Char) :
    (∀ msg, startOf hdr = Except.error msg →
      (do_GET data mime (some hdr)).status = 500 ∧
      (do_GET data mime (some hdr)).errorMsg = some msg ∧
      (do_GET data mime (some hdr)).status ≠ 200 ∧
      (do_GET data mime (some hdr)).body = []) ∧
    (∀ s msg, startOf hdr = Except.ok s → endOf hdr data.length = Except.error msg →
      (do_GET data mime (some hdr)).status = 500 ∧
      (do_GET data mime (some hdr)).errorMsg = some msg ∧
      (do_GET data mime (some hdr)).status ≠ 200 ∧
      (do_GET data mime (some hdr)).body = []) := by
  constructor
  · intro msg hmsg
    have : do_GET data mime (some hdr) = sendError 500 msg := by
      show rangeResponse data mime hdr = _
      rw [rangeResponse, hmsg]
    rw [this]
    exact ⟨rfl, rfl, (by decide : (500 : Nat) ≠ 200), rfl⟩
  · intro s msg hs hmsg
    have : do_GET data mime (some hdr) = sendError 500 msg := by
      show rangeResponse data mime hdr = _
      rw [rangeResponse, hs, hmsg]
    rw [this]
    exact ⟨rfl, rfl, (by decide : (500 : Nat) ≠ 200), rfl⟩

/-- Witness for the amended C2 at concrete inputs: `bytes=abc-def` fails on
its first token, `bytes=5-def` on its second. -/
theorem claim2_witness :
    ((do_GET [1, 2, 3] "t" (some "bytes=abc-def".toList)).status = 500 ∧
     (do_GET [1, 2, 3] "t" (some "bytes=abc-def".toList)).errorMsg
       = some (intErrMsg "abc".toList) ∧
     (do_GET [1, 2, 3] "t" (some "bytes=abc-def".toList)).status ≠ 200 ∧
     (do_GET [1, 2, 3] "t" (some "bytes=abc-def".toList)).body = []) ∧
    ((do_GET [1, 2, 3] "t" (some "bytes=5-def".toList)).status = 500 ∧
     (do_GET [1, 2, 3] "t" (some "bytes=5-def".toList)).errorMsg
       = some (intErrMsg "def".toList) ∧
     (do_GET [1, 2, 3] "t" (some "bytes=5-def".toList)).status ≠ 200 ∧
     (do_GET [1, 2, 3] "t" (some "bytes=5-def".toList)).body = []) :=
  ⟨(claim2_malformed_is_500 [1, 2, 3] "t" "bytes=abc-def".toList).1
      (intErrMsg "abc".toList) (by decide),
   (claim2_malformed_is_500 [1, 2, 3] "t" "bytes=5-def".toList).2
      5 (intErrMsg "def".toList) (by decide) (by decide)⟩

/-- C9: for every resource and every partition of `[0, L-1]` into
consecutive valid windows (each window starting where the previous one
ended, the last ending at `L - 1`), concatenating the 206 response bodies of
the windows in order reconstructs the resource byte sequence exactly. -/
theorem claim9_range_roundtrip (data : List Nat) (mime : String)
    (ws : List (Nat × Nat)) (h : windowsChain data.length 0 ws = true) :
    (ws.map fun w => (do_GET data mime (some (rangeHeaderSE w.1 w.2))).body).flatten
      = data := by
  have main : ∀ (l : List (Nat × Nat)) (s : Nat), windowsChain data.length s l = true →
      (l.map fun w => (do_GET data mime (some (rangeHeaderSE w.1 w.2))).body).flatten
        = data.drop s := by
    intro l
    induction l with
    | nil =>
      intro s hs
      have : s = data.length := by simpa [windowsChain] using hs
      subst this
      simp
    | cons w l ih =>
      intro s hs
      rw [windowsChain] at hs
      simp only [Bool.and_eq_true, beq_iff_eq, decide_eq_true_eq] at hs
      obtain ⟨⟨⟨h1, h2⟩, h3⟩, h4⟩ := hs
      rw [List.map_cons, List.flatten_cons, body_SE data mime w.1 w.2 h2 h3, ih (w.2 + 1) h4,
        show w.2 + 1 = w.1 + (w.2 - w.1 + 1) from by omega, ← List.drop_drop, h1,
        List.take_append_drop]
  rw [main ws 0 h, List.drop_zero]

/-- Witness for C9 at a concrete input: the partition
`[(0,1), (2,2), (3,4)]` of a 5-byte resource reassembles it. -/
theorem claim9_witness :
    (([(0, 1), (2, 2), (3, 4)] : List (Nat × Nat)).map
        fun w => (do_GET [10, 20, 30, 40, 50] "t" (some (rangeHeaderSE w.1 w.2))).body).flatten
      = [10, 20, 30, 40, 50] :=
  claim9_range_roundtrip [10, 20, 30, 40, 50] "t" [(0, 1), (2, 2), (3, 4)] (by decide)

/-- C10: for every validated window `0 ≤ start ≤ end ≤ L - 1` the chunked
read loop terminates (it is a total function, with fuel argument bounded by
the remaining byte count, which strictly decreases at every iteration);
every chunk it writes is nonempty and at most 8192 bytes; and in total it
never writes more than `end - start + 1` bytes. -/
theorem claim10_stream_loop_bounds (data : List Nat) (mime : String) (s e : Nat)
    (hse : s ≤ e) (heL : e < data.length) :
    (do_GET data mime (some (rangeHeaderSE s e))).body.length ≤ e - s + 1 ∧
    ∀ c ∈ streamChunks data s (e - s + 1), c ≠ [] ∧ c.length ≤ 8192 := by
  constructor
  · rw [body_SE data mime s e hse heL, List.length_take]
    omega
  · exact streamChunks_mem data s (e - s + 1)

/-- Witness for C10 at a concrete input. -/
theorem claim10_witness :
    (do_GET [10, 20, 30, 40, 50] "t" (some (rangeHeaderSE 1 3))).body.length ≤ 3 - 1 + 1 ∧
    ∀ c ∈ streamChunks [10, 20, 30, 40, 50] 1 (3 - 1 + 1), c ≠ [] ∧ c.length ≤ 8192 :=
  claim10_stream_loop_bounds [10, 20, 30, 40, 50] "t" 1 3 (by decide) (by decide)

/-! Facts about the read loop against a fallible sink. -/

theorem writtenBody_nil : writtenBody [] = [] := rfl

theorem writtenBody_cons_write (chunk : List Nat) (evs : List Ev) :
    writtenBody (Ev.bodyWrite chunk :: evs) = chunk ++ writtenBody evs := rfl

theorem writtenBody_append (a b : List Ev) :
    writtenBody (a ++ b) = writtenBody a ++ writtenBody b := by
  rw [writtenBody, writtenBody, writtenBody, List.filterMap_append, List.flatten_append]

theorem writtenBody_hdrEvents (mime : String) (s e : Int) (L : Nat) :
    writtenBody (hdrEvents206 mime s e L) = [] := rfl

theorem streamSinkAux_succ (data : List Nat) (cap fuel pos b written : Nat) :
    streamSinkAux data cap (fuel + 1) pos b written =
      if 0 < b then
        if (data.drop pos).take (min 8192 b) = [] then ([], none)
        else if cap < written + ((data.drop pos).take (min 8192 b)).length then
          ([], some "Broken pipe")
        else
          (Ev.bodyWrite ((data.drop pos).take (min 8192 b)) ::
            (streamSinkAux data cap fuel (pos + ((data.drop pos).take (min 8192 b)).length)
              (b - ((data.drop pos).take (min 8192 b)).length)
              (written + ((data.drop pos).take (min 8192 b)).length)).1,
           (streamSinkAux data cap fuel (pos + ((data.drop pos).take (min 8192 b)).length)
              (b - ((data.drop pos).take (min 8192 b)).length)
              (written + ((data.drop pos).take (min 8192 b)).length)).2)
      else ([], none) := rfl

/-- Every write performed against the sink respected the capacity: the
total number of body bytes in the successful writes never exceeds `cap`. -/
theorem streamSinkAux_cap (data : List Nat) (cap : Nat) (fuel : Nat) :
    ∀ pos b written, written ≤ cap →
      written + (writtenBody (streamSinkAux data cap fuel pos b written).1).length ≤ cap := by
  induction fuel with
  | zero =>
    intro pos b written hw
    simpa [streamSinkAux, writtenBody_nil] using hw
  | succ fuel ih =>
    intro pos b written hw
    rw [streamSinkAux_succ]
    by_cases h0 : 0 < b
    · rw [if_pos h0]
      by_cases hc : (data.drop pos).take (min 8192 b) = []
      · rw [if_pos hc]
        simpa [writtenBody_nil] using hw
      · rw [if_neg hc]
        by_cases hcap : cap < written + ((data.drop pos).take (min 8192 b)).length
        · rw [if_pos hcap]
          simpa [writtenBody_nil] using hw
        · rw [if_neg hcap]
          have := ih (pos + ((data.drop pos).take (min 8192 b)).length)
            (b - ((data.drop pos).take (min 8192 b)).length)
            (written + ((data.drop pos).take (min 8192 b)).length) (by omega)
          rw [writtenBody_cons_write, List.length_append]
          omega
    · rw [if_neg h0]
      simpa [writtenBody_nil] using hw

/-- The loop against the sink never attempts more than the requested
window: the successful writes total at most `b` bytes. -/
theorem streamSinkAux_window (data : List Nat) (cap : Nat) (fuel : Nat) :
    ∀ pos b written,
      (writtenBody (streamSinkAux data cap fuel pos b written).1).length ≤ b := by
  induction fuel with
  | zero =>
    intro pos b written
    simp [streamSinkAux, writtenBody_nil]
  | succ fuel ih =>
    intro pos b written
    rw [streamSinkAux_succ]
    by_cases h0 : 0 < b
    · rw [if_pos h0]
      by_cases hc : (data.drop pos).take (min 8192 b) = []
      · rw [if_pos hc]
        simp [writtenBody_nil]
      · rw [if_neg hc]
        by_cases hcap : cap < written + ((data.drop pos).take (min 8192 b)).length
        · rw [if_pos hcap]
          simp [writtenBody_nil]
        · rw [if_neg hcap]
          have := ih (pos + ((data.drop pos).take (min 8192 b)).length)
            (b - ((data.drop pos).take (min 8192 b)).length)
            (written + ((data.drop pos).take (min 8192 b)).length)
          have hlt : ((data.drop pos).take (min 8192 b)).length ≤ min 8192 b := by
            rw [List.length_take]
            omega
          rw [writtenBody_cons_write, List.length_append]
          omega
    · rw [if_neg h0]
      simp [writtenBody_nil]

/-- C8 counterexample: the claim says a mid-stream sink failure is
swallowed at the streaming loop with no error response surfaced.  In fact
the exception escapes the loop to the handler's `except` clause
(`server.py:59-61`), which calls `send_error(500, str(e))`: the trace of a
disconnected transfer contains a 500 error-response attempt. -/
theorem claim8_counterexample :
    Ev.sendErrorEv 500 "Broken pipe"
      ∈ rangeTrace [1, 2, 3, 4] "t" (rangeHeaderSE 0 3) 2 := by
  decide

/-- C8 (amended): when the sink fails mid-stream during the write loop of a
validated 206 transfer, the exception propagates out of the loop to the
handler's `except` clause, which ends the trace with an attempted
`send_error(500, str(e))`; the transfer stops early — the bytes actually
written never exceed the sink capacity nor the requested window — and
nothing beyond that error attempt is emitted. -/
theorem claim8_disconnect_propagates_500 (data : List Nat) (mime : String)
    (hdr : List Char) (cap : Nat) (s e : Int) (evs : List Ev) (msg : String)
    (hs : startOf hdr = Except.ok s)
    (he : endOf hdr data.length = Except.ok e)
    (hv : ¬(s ≥ (data.length : Int) ∨ e ≥ (data.length : Int) ∨ s > e))
    (hsink : streamSink data s.toNat ((e - s + 1 : Int)).toNat 0 cap = (evs, some msg)) :
    rangeTrace data mime hdr cap
      = hdrEvents206 mime s e data.length ++ evs ++ [Ev.sendErrorEv 500 msg] ∧
    (writtenBody (rangeTrace data mime hdr cap)).length ≤ cap ∧
    (writtenBody (rangeTrace data mime hdr cap)).length ≤ ((e - s + 1 : Int)).toNat := by
  have htr : rangeTrace data mime hdr cap
      = hdrEvents206 mime s e data.length ++ evs ++ [Ev.sendErrorEv 500 msg] := by
    rw [rangeTrace, hs, he]
    show (if s ≥ (data.length : Int) ∨ e ≥ (data.length : Int) ∨ s > e then _
      else _) = _
    rw [if_neg hv]
    show (match (streamSink data s.toNat ((e - s + 1 : Int)).toNat 0 cap).2 with
      | none => hdrEvents206 mime s e data.length
          ++ (streamSink data s.toNat ((e - s + 1 : Int)).toNat 0 cap).1
      | some m => hdrEvents206 mime s e data.length
          ++ (streamSink data s.toNat ((e - s + 1 : Int)).toNat 0 cap).1
          ++ [Ev.sendErrorEv 500 m]) = _
    rw [hsink]
  have hevs : evs = (streamSinkAux data cap ((e - s + 1 : Int)).toNat s.toNat
      ((e - s + 1 : Int)).toNat 0).1 := by
    rw [show streamSinkAux data cap ((e - s + 1 : Int)).toNat s.toNat
        ((e - s + 1 : Int)).toNat 0
      = streamSink data s.toNat ((e - s + 1 : Int)).toNat 0 cap from rfl, hsink]
  have hwb : writtenBody (rangeTrace data mime hdr cap) = writtenBody evs := by
    rw [htr, writtenBody_append, writtenBody_append, writtenBody_hdrEvents]
    show [] ++ (writtenBody evs ++ []) = writtenBody evs
    rw [List.nil_append, List.append_nil]
  refine ⟨htr, ?_, ?_⟩
  · rw [hwb, hevs]
    have := streamSinkAux_cap data cap ((e - s + 1 : Int)).toNat s.toNat
      ((e - s + 1 : Int)).toNat 0 (Nat.zero_le cap)
    omega
  · rw [hwb, hevs]
    exact streamSinkAux_window data cap ((e - s + 1 : Int)).toNat s.toNat
      ((e - s + 1 : Int)).toNat 0

/-- Witness for the amended C8: resource `[1, 2, 3, 4]`, header
`bytes=0-3`, a sink that accepts only 2 bytes. -/
theorem claim8_witness :
    rangeTrace [1, 2, 3, 4] "t" (rangeHeaderSE 0 3) 2
      = hdrEvents206 "t" 0 3 (List.length [1, 2, 3, 4]) ++ [] ++ [Ev.sendErrorEv 500 "Broken pipe"] ∧
    (writtenBody (rangeTrace [1, 2, 3, 4] "t" (rangeHeaderSE 0 3) 2)).length ≤ 2 ∧
    (writtenBody (rangeTrace [1, 2, 3, 4] "t" (rangeHeaderSE 0 3) 2)).length
      ≤ ((3 - 0 + 1 : Int)).toNat :=
  claim8_disconnect_propagates_500 [1, 2, 3, 4] "t" (rangeHeaderSE 0 3) 2 0 3 [] "Broken pipe"
    (by decide) (by decide) (by decide) (by decide)

end RangeServer
